import Mathlib

/-!
Verification of the asynchronous task-resolution core of VerseVisions
(`main.py`, `download_song.py`, `check_status.py`): the endpoint resolver,
the structural extractors for `status` and the audio URL, the poller loop
of `MusicGenerator.monitor_and_download`, the download retry executor, and
the standalone `check_task_status` entry point.

JSON values are embedded as a mutual inductive (`Json` / `JsonArr` /
`JsonObj`); Python truthiness, `dict.get`, and `==` against string or int
literals are modelled explicitly.  Network and filesystem behaviour is an
oracle supplied as an argument (per-candidate endpoint results, a
per-attempt download success function), so every definition is executable.
-/

mutual

/-- A parsed JSON value, as handed around by `response.json()`. -/
inductive Json where
  | str (s : String)
  | num (n : Int)
  | bool (b : Bool)
  | null
  | arr (items : JsonArr)
  | obj (fields : JsonObj)

/-- A JSON array. -/
inductive JsonArr where
  | nil
  | cons (head : Json) (tail : JsonArr)

/-- A JSON object: keys in insertion order (Python dicts preserve it). -/
inductive JsonObj where
  | nil
  | cons (key : String) (value : Json) (tail : JsonObj)

end

/-- Build a `JsonArr` from a list. -/
def JsonArr.ofList : List Json → JsonArr
  | [] => .nil
  | j :: rest => .cons j (JsonArr.ofList rest)

/-- Build a `JsonObj` from an association list. -/
def JsonObj.ofList : List (String × Json) → JsonObj
  | [] => .nil
  | (k, v) :: rest => .cons k v (JsonObj.ofList rest)

/-- Python `dict.get(key)`: the value under `key`, or `None`. -/
def JsonObj.get : JsonObj → String → Option Json
  | .nil, _ => none
  | .cons k v rest, key => if k == key then some v else rest.get key

/-- Python truthiness (`bool(x)`) of a JSON value. -/
def Json.truthy : Json → Bool
  | .str s => !(s == "")
  | .num n => !(n == 0)
  | .bool b => b
  | .null => false
  | .arr .nil => false
  | .arr (.cons _ _) => true
  | .obj .nil => false
  | .obj (.cons _ _ _) => true

/-- Truthiness of an optional JSON value (`None` is falsy). -/
def optTruthy : Option Json → Bool
  | none => false
  | some v => v.truthy

/-- Python `value == n` for an int literal `n` (`True == 1`, strings and
containers never equal an int). -/
def jsonEqInt : Json → Int → Bool
  | .num m, n => m == n
  | .bool b, n => (if b then (1 : Int) else 0) == n
  | _, _ => false

/-- What one candidate status endpoint does when queried: answers 200 with
a parsed body, answers a non-200 status code, or raises a network error. -/
inductive EndpointResult where
  | ok (body : Json)
  | httpError (code : Nat)
  | netError

/-- The candidate answered exactly 200. -/
def EndpointResult.isOk : EndpointResult → Bool
  | .ok _ => true
  | _ => false

/-- The candidate answered a non-200 status code (no exception raised). -/
def EndpointResult.isHttpError : EndpointResult → Bool
  | .httpError _ => true
  | _ => false

/-- `MusicGenerator.check_generation_status` (main.py): queries the primary
endpoint then the four alternates, in order, given each candidate's
behaviour.  A 200 returns its parsed body; a non-200 moves to the next
candidate; a `requests.exceptions.RequestException` is caught by the single
`try/except` wrapped around the whole sequence, so it returns `None` at
once without trying the remaining candidates. -/
def check_generation_status : List EndpointResult → Option Json
  | [] => none
  | .ok b :: _ => some b
  | .httpError _ :: rest => check_generation_status rest
  | .netError :: _ => none

/-- `get_task_details` (download_song.py): tries the five candidate
endpoints in order; the `try/except` sits inside the loop, so both a
non-200 answer and a raised exception move on to the next candidate, and
`None` comes back only once every candidate has failed. -/
def get_task_details : List EndpointResult → Option Json
  | [] => none
  | .ok b :: _ => some b
  | .httpError _ :: rest => get_task_details rest
  | .netError :: rest => get_task_details rest

mutual

/-- The inner `find_status` helper shared verbatim by
`MusicGenerator.monitor_and_download` (main.py) and `check_task_status`
(check_status.py): in a dict, a present `status` key is returned
immediately (whatever its value); otherwise the values are searched in key
order, and a recursive result is kept only when truthy (`if result:`). -/
def find_status : Json → Option Json
  | .obj fields =>
    match JsonObj.get fields "status" with
    | some v => some v
    | none => findStatusFields fields
  | .arr items => findStatusItems items
  | _ => none

/-- The `for k, v in obj.items()` loop of `find_status`. -/
def findStatusFields : JsonObj → Option Json
  | .nil => none
  | .cons _ v rest =>
    match find_status v with
    | some r => if r.truthy then some r else findStatusFields rest
    | none => findStatusFields rest

/-- The `for item in obj` loop of `find_status` over a list. -/
def findStatusItems : JsonArr → Option Json
  | .nil => none
  | .cons item rest =>
    match find_status item with
    | some r => if r.truthy then some r else findStatusItems rest
    | none => findStatusItems rest

end

/-- The documented status path of `monitor_and_download`:
`data = task_details.get('data', {})`, then `data.get('status')` only when
`data` is a dict. -/
def dataStatus (fields : JsonObj) : Option Json :=
  match (fields.get "data").getD (Json.obj JsonObj.nil) with
  | .obj df => df.get "status"
  | _ => none

/-- Status extraction of `monitor_and_download` (main.py, lines 564–590):
the documented path `data.status`, then the top level, then the recursive
search; each earlier result is kept only when truthy (`if not status:`). -/
def extract_status (fields : JsonObj) : Option Json :=
  if optTruthy (dataStatus fields) then dataStatus fields
  else if optTruthy (fields.get "status") then fields.get "status"
  else find_status (Json.obj fields)

/-- Status extraction of `check_task_status` (check_status.py, lines
71–95).  It differs from main.py's: the whole extraction sits in one
`try/except`, and the first step is the unguarded
`task_details.get('data', {}).get('status')`, so a non-dict `data` (or a
non-dict `task_details`) raises `AttributeError`, the exception is caught,
and the later fallbacks are skipped — `status` stays `None`. -/
def ck_extract_status : Json → Option Json
  | .obj fields =>
    match (JsonObj.get fields "data").getD (Json.obj JsonObj.nil) with
    | .obj df =>
      if optTruthy (df.get "status") then df.get "status"
      else if optTruthy (JsonObj.get fields "status") then JsonObj.get fields "status"
      else find_status (Json.obj fields)
    | _ => none
  | _ => none

mutual

/-- Specification-side predicate: some dict in the tree carries a `status`
key with a truthy value. -/
def hasTruthyStatus : Json → Bool
  | .obj fields => optTruthy (JsonObj.get fields "status") || hasTruthyFields fields
  | .arr items => hasTruthyItems items
  | _ => false

/-- `hasTruthyStatus` over an object's values. -/
def hasTruthyFields : JsonObj → Bool
  | .nil => false
  | .cons _ v rest => hasTruthyStatus v || hasTruthyFields rest

/-- `hasTruthyStatus` over an array's items. -/
def hasTruthyItems : JsonArr → Bool
  | .nil => false
  | .cons item rest => hasTruthyStatus item || hasTruthyItems rest

end

/-- `p` occurs as a contiguous substring of `s` (Python `p in s`). -/
def strContains (s p : String) : Bool :=
  s.toList.tails.any (fun t => p.toList.isPrefixOf t)

/-- The validity filter of `find_audio_url` (main.py lines 388–391,
download_song.py lines 130–133): the string starts with `http` and carries
one of the content markers `.mp3`, `.wav`, `/audio/`. -/
def urlValid (s : String) : Bool :=
  "http".toList.isPrefixOf s.toList &&
    (strContains s ".mp3" || strContains s ".wav" || strContains s "/audio/")

/-- The alias keys checked directly, in order, by `find_audio_url`. -/
def aliasKeys : List String := ["audioUrl", "audio_url", "url", "mp3Url", "streamUrl"]

/-- The `for key in [...]` alias loop of `find_audio_url`: the first alias
key present whose value is a string passing the validity filter; a key that
is absent, non-string or invalid moves on to the next alias. -/
def checkAliases (fields : JsonObj) : List String → Option String
  | [] => none
  | k :: ks =>
    match JsonObj.get fields k with
    | some (.str s) => if urlValid s then some s else checkAliases fields ks
    | _ => checkAliases fields ks

mutual

/-- `MusicGenerator.find_audio_url` (main.py lines 375–406), identical to
the module-level `find_audio_url` of download_song.py (lines 117–148): in a
dict, try the alias keys with the validity filter, then recurse into every
value in key order; in a list, recurse into every item.  A recursive result
is truthy whenever present (a valid URL starts with `http`), so Python's
`if result:` is plain propagation. -/
def find_audio_url : Json → Option String
  | .obj fields =>
    match checkAliases fields aliasKeys with
    | some s => some s
    | none => faFields fields
  | .arr items => faItems items
  | _ => none

/-- The recursive value loop of `find_audio_url` over a dict. -/
def faFields : JsonObj → Option String
  | .nil => none
  | .cons _ v rest =>
    match find_audio_url v with
    | some r => some r
    | none => faFields rest

/-- The recursive item loop of `find_audio_url` over a list. -/
def faItems : JsonArr → Option String
  | .nil => none
  | .cons item rest =>
    match find_audio_url item with
    | some r => some r
    | none => faItems rest

end

/-- The singleton list of a JSON string's payload (else empty): the
direct-value contribution of one key to `aliasStrings`. -/
def strVal : Json → List String
  | .str s => [s]
  | _ => []

mutual

/-- Specification-side collector: every string bound to one of the alias
keys anywhere in the tree (the only values `find_audio_url` can return). -/
def aliasStrings : Json → List String
  | .obj fields => aliasStringsFields fields
  | .arr items => aliasStringsItems items
  | _ => []

/-- `aliasStrings` over an object. -/
def aliasStringsFields : JsonObj → List String
  | .nil => []
  | .cons k v rest =>
    (if aliasKeys.contains k then strVal v else []) ++
      aliasStrings v ++ aliasStringsFields rest

/-- `aliasStrings` over an array. -/
def aliasStringsItems : JsonArr → List String
  | .nil => []
  | .cons item rest => aliasStrings item ++ aliasStringsItems rest

end

/-- `status == 'X'` / `status in [...]` for the raw status value: Python
string equality, so only a string can match. -/
def statusInList (st : Option Json) (l : List String) : Bool :=
  match st with
  | some (.str s) => l.contains s
  | _ => false

/-- The explicitly-failed lifecycle statuses of `monitor_and_download`. -/
def failedStatuses : List String :=
  ["CREATE_TASK_FAILED", "GENERATE_AUDIO_FAILED", "CALLBACK_EXCEPTION", "SENSITIVE_WORD_ERROR"]

/-- The top-level API error-code check of `monitor_and_download` (main.py
lines 552–559): `if api_code and api_code != 200:` then
`if api_code not in [200, 404]: return False`.  True exactly when the tick
returns `False` on the code alone. -/
def codeFails (c : Option Json) : Bool :=
  match c with
  | none => false
  | some j => j.truthy && !jsonEqInt j 200 && !(jsonEqInt j 200 || jsonEqInt j 404)

/-- What one loop iteration of `monitor_and_download` does with a resolved
response, before the `checks += 1; time.sleep(...)` bookkeeping. -/
inductive TickOutcome where
  | stillPolling
  | failedApiCode
  | failedStatus
  | handoff (url : String)
  | crash
deriving DecidableEq

/-- The status-interpretation part of a tick (main.py lines 600–633): a
success-class status hands the found audio URL to the download stage, or
keeps polling when no URL is found; an explicitly-failed status returns
`False`; everything else (pending, unknown, absent) keeps polling. -/
def statusTick (fields : JsonObj) : TickOutcome :=
  let st := extract_status fields
  if statusInList st ["SUCCESS", "FIRST_SUCCESS"] then
    match find_audio_url (Json.obj fields) with
    | some url => .handoff url
    | none => .stillPolling
  else if statusInList st failedStatuses then .failedStatus
  else .stillPolling

/-- One tick on a truthy dict response: the API error-code check first,
then the status interpretation. -/
def tickObj (fields : JsonObj) : TickOutcome :=
  if codeFails (fields.get "code") then .failedApiCode else statusTick fields

/-- One tick of `monitor_and_download` on the resolver's result: a falsy
result (`if not task_details:`) keeps polling; a truthy dict goes through
`tickObj`; a truthy non-dict makes `task_details.get('code')` raise an
uncaught `AttributeError`. -/
def tick : Option Json → TickOutcome
  | none => .stillPolling
  | some td =>
    if td.truthy then
      match td with
      | .obj fields => tickObj fields
      | _ => .crash
    else .stillPolling

/-- How a whole `monitor_and_download` run ends.  The Python function
returns a single `bool`; the constructors record which exit was taken and
`MonitorOutcome.ret` maps them back to the value the caller sees. -/
inductive MonitorOutcome where
  | succeeded
  | downloadFailed
  | failedApi
  | failedStatus
  | exhausted
  | crash
deriving DecidableEq

/-- The value `monitor_and_download` actually returns for each exit:
`True` only for a successful download, `False` for download failure, API
error, failed status and exhaustion alike; an uncaught exception returns
nothing. -/
def MonitorOutcome.ret : MonitorOutcome → Option Bool
  | .succeeded => some true
  | .crash => none
  | _ => some false

/-- The `while checks < max_checks` loop of `monitor_and_download`,
starting at tick `i` with `budget` checks left.  `resp j` is what
`check_generation_status` resolves on tick `j`; `dl j` is whether the
`download_music` call made on tick `j` succeeds.  Returns the outcome and
how many times the loop slept (`time.sleep(check_interval)` runs once per
still-polling tick; the terminal exits return without sleeping). -/
def monitorLoop (resp : Nat → Option Json) (dl : Nat → Bool) :
    Nat → Nat → MonitorOutcome × Nat
  | _, 0 => (.exhausted, 0)
  | i, budget + 1 =>
    match tick (resp i) with
    | .stillPolling =>
      let r := monitorLoop resp dl (i + 1) budget
      (r.1, r.2 + 1)
    | .failedApiCode => (.failedApi, 0)
    | .failedStatus => (.failedStatus, 0)
    | .handoff _ => if dl i then (.succeeded, 0) else (.downloadFailed, 0)
    | .crash => (.crash, 0)

/-- `MusicGenerator.monitor_and_download` (main.py lines 518–637) from the
first tick with the full `max_checks` budget. -/
def monitor_and_download (resp : Nat → Option Json) (dl : Nat → Bool)
    (maxChecks : Nat) : MonitorOutcome × Nat :=
  monitorLoop resp dl 0 maxChecks

/-- The retry loop shared by `MusicGenerator.download_music` (main.py
lines 463–516) and `download_file` (download_song.py lines 23–76), from
`retry_count = i` with `rem` attempts left.  `attempt j` is whether the
attempt at `retry_count = j` completes without raising and leaves a
non-empty file.  Returns (result, attempts made, sleep schedule): a failed
attempt sleeps `2 ** retry_count` seconds — also after the last failure —
while a successful attempt returns `True` at once. -/
def downloadLoop (attempt : Nat → Bool) : Nat → Nat → Bool × Nat × List Nat
  | _, 0 => (false, 0, [])
  | i, rem + 1 =>
    if attempt i then (true, 1, [])
    else
      let r := downloadLoop attempt (i + 1) rem
      (r.1, r.2.1 + 1, 2 ^ i :: r.2.2)

/-- `download_file(url, output_path, max_retries)` (download_song.py). -/
def download_file (attempt : Nat → Bool) (maxRetries : Nat) : Bool × Nat × List Nat :=
  downloadLoop attempt 0 maxRetries

/-- `MusicGenerator.download_music(audio_url, output_path, max_retries)`
(main.py): the same loop as `download_file`. -/
def download_music (attempt : Nat → Bool) (maxRetries : Nat) : Bool × Nat × List Nat :=
  downloadLoop attempt 0 maxRetries

mutual

/-- The local `find_audio_url` of `check_task_status` (check_status.py
lines 117–132): returns the value under `audioUrl` (else `audio_url`)
unconditionally when the key is present — no string check, no validity
filter — and otherwise keeps a recursive result only when truthy. -/
def cs_find_audio_url : Json → Option Json
  | .obj fields =>
    match JsonObj.get fields "audioUrl" with
    | some v => some v
    | none =>
      match JsonObj.get fields "audio_url" with
      | some v => some v
      | none => csFaFields fields
  | .arr items => csFaItems items
  | _ => none

/-- The value loop of `cs_find_audio_url` over a dict. -/
def csFaFields : JsonObj → Option Json
  | .nil => none
  | .cons _ v rest =>
    match cs_find_audio_url v with
    | some r => if r.truthy then some r else csFaFields rest
    | none => csFaFields rest

/-- The item loop of `cs_find_audio_url` over a list. -/
def csFaItems : JsonArr → Option Json
  | .nil => none
  | .cons item rest =>
    match cs_find_audio_url item with
    | some r => if r.truthy then some r else csFaItems rest
    | none => csFaItems rest

end

/-- Python `a or b` over optional JSON values: the first operand when
truthy, else the second. -/
def pyOr (a b : Option Json) : Option Json :=
  if optTruthy a then a else b

/-- Stages 2 and 3 of the audio-URL extraction in `check_task_status`
(check_status.py lines 111–134): `data.get('audioUrl')` when truthy, else
the recursive `cs_find_audio_url` over the whole response. -/
def ckStage23 (fields df : JsonObj) : Option Json :=
  let s2 := df.get "audioUrl"
  if optTruthy s2 then s2 else cs_find_audio_url (Json.obj fields)

/-- The audio-URL extraction of `check_task_status` (check_status.py lines
103–136), `try/except` included.  Stage 1 reads
`task_details.get('data', {}).get('results', [])` and, when `results` is
truthy with positive length, `results[0].get('audioUrl') or
results[0].get('audio_url')`; any raise inside the `try` (non-dict `data`,
indexing or `.get` on a non-indexable/non-dict `results[0]`) is caught and
leaves `audio_url = None`, skipping the later stages. -/
def ckAudioUrl (fields : JsonObj) : Option Json :=
  match (fields.get "data").getD (Json.obj JsonObj.nil) with
  | .obj df =>
    match (df.get "results").getD (Json.arr JsonArr.nil) with
    | .arr (.cons r0 _) =>
      match r0 with
      | .obj r0f =>
        let a1 := pyOr (r0f.get "audioUrl") (r0f.get "audio_url")
        if optTruthy a1 then a1 else ckStage23 fields df
      | _ => none
    | .arr .nil => ckStage23 fields df
    | .str s => if s == "" then ckStage23 fields df else none
    | .num n => if n == 0 then ckStage23 fields df else none
    | .bool b => if b then none else ckStage23 fields df
    | .null => ckStage23 fields df
    | .obj .nil => ckStage23 fields df
    | .obj (.cons _ _ _) => none
  | _ => none

/-- How one `check_task_status` call ends; the Python function returns a
single `bool`, recovered by `CheckOutcome.ret`. -/
inductive CheckOutcome where
  | resolverFailed
  | downloaded
  | downloadFailed
  | urlReported
  | noUrl
  | taskFailed
  | stillProcessing
deriving DecidableEq

/-- The boolean `check_task_status` returns for each exit: `True` when the
audio was downloaded or when a URL was found with no output file asked
for; `False` otherwise. -/
def CheckOutcome.ret : CheckOutcome → Bool
  | .downloaded => true
  | .urlReported => true
  | _ => false

/-- `check_task_status(task_id, output_file, debug)` (check_status.py
lines 23–165) after its endpoint loop: `td` is the resolved response (or
`None`), `hasOutput` whether an output file was passed, `dlOk` whether the
plain `requests.get` download of the found URL answers 200.  Completion is
recognised for the exact strings `complete`, `finished`, `success`;
`failed`/`error` fail the task; anything else is "still processing". -/
def check_task_status (td : Option Json) (hasOutput dlOk : Bool) : CheckOutcome :=
  match td with
  | none => .resolverFailed
  | some t =>
    if t.truthy then
      let st := ck_extract_status t
      if statusInList st ["complete", "finished", "success"] then
        match t with
        | .obj fields =>
          if optTruthy (ckAudioUrl fields) then
            if hasOutput then (if dlOk then .downloaded else .downloadFailed)
            else .urlReported
          else .noUrl
        | _ => .noUrl
      else if statusInList st ["failed", "error"] then .taskFailed
      else .stillProcessing
    else .resolverFailed

theorem gtd_some_iff (rs : List EndpointResult) (b : Json) :
    get_task_details rs = some b ↔
      ∃ pre post, rs = pre ++ .ok b :: post ∧ ∀ r ∈ pre, r.isOk = false := by
  induction rs with
  | nil =>
    simp [get_task_details]
  | cons r rest ih =>
    cases r with
    | ok a =>
      simp only [get_task_details, Option.some_inj]
      constructor
      · rintro rfl
        exact ⟨[], rest, rfl, by simp⟩
      · rintro ⟨pre, post, heq, hpre⟩
        cases pre with
        | nil =>
          simp only [List.nil_append, List.cons.injEq, EndpointResult.ok.injEq] at heq
          exact heq.1
        | cons p pre' =>
          injection heq with h1 h2
          have hp := hpre p (List.mem_cons_self p pre')
          rw [← h1] at hp
          simp [EndpointResult.isOk] at hp
    | httpError c =>
      simp only [get_task_details]
      rw [ih]
      constructor
      · rintro ⟨pre, post, rfl, hpre⟩
        refine ⟨.httpError c :: pre, post, rfl, ?_⟩
        intro r hr
        rcases List.mem_cons.mp hr with h | h
        · subst h; rfl
        · exact hpre r h
      · rintro ⟨pre, post, heq, hpre⟩
        cases pre with
        | nil =>
          injection heq with h1 h2
          exact absurd h1 (by simp)
        | cons p pre' =>
          injection heq with h1 h2
          exact ⟨pre', post, h2, fun r hr => hpre r (h1 ▸ List.mem_cons_of_mem p hr)⟩
    | netError =>
      simp only [get_task_details]
      rw [ih]
      constructor
      · rintro ⟨pre, post, rfl, hpre⟩
        refine ⟨.netError :: pre, post, rfl, ?_⟩
        intro r hr
        rcases List.mem_cons.mp hr with h | h
        · subst h; rfl
        · exact hpre r h
      · rintro ⟨pre, post, heq, hpre⟩
        cases pre with
        | nil =>
          injection heq with h1 h2
          exact absurd h1 (by simp)
        | cons p pre' =>
          injection heq with h1 h2
          exact ⟨pre', post, h2, fun r hr => hpre r (h1 ▸ List.mem_cons_of_mem p hr)⟩

theorem cgs_some_iff (rs : List EndpointResult) (b : Json) :
    check_generation_status rs = some b ↔
      ∃ pre post, rs = pre ++ .ok b :: post ∧ ∀ r ∈ pre, r.isHttpError = true := by
  induction rs with
  | nil =>
    simp [check_generation_status]
  | cons r rest ih =>
    cases r with
    | ok a =>
      simp only [check_generation_status, Option.some_inj]
      constructor
      · rintro rfl
        exact ⟨[], rest, rfl, by simp⟩
      · rintro ⟨pre, post, heq, hpre⟩
        cases pre with
        | nil =>
          simp only [List.nil_append, List.cons.injEq, EndpointResult.ok.injEq] at heq
          exact heq.1
        | cons p pre' =>
          injection heq with h1 h2
          have hp := hpre p (List.mem_cons_self p pre')
          rw [← h1] at hp
          simp [EndpointResult.isHttpError] at hp
    | httpError c =>
      simp only [check_generation_status]
      rw [ih]
      constructor
      · rintro ⟨pre, post, rfl, hpre⟩
        refine ⟨.httpError c :: pre, post, rfl, ?_⟩
        intro r hr
        rcases List.mem_cons.mp hr with h | h
        · subst h; rfl
        · exact hpre r h
      · rintro ⟨pre, post, heq, hpre⟩
        cases pre with
        | nil =>
          injection heq with h1 h2
          exact absurd h1 (by simp)
        | cons p pre' =>
          injection heq with h1 h2
          exact ⟨pre', post, h2, fun r hr => hpre r (h1 ▸ List.mem_cons_of_mem p hr)⟩
    | netError =>
      simp only [check_generation_status]
      constructor
      · intro h
        exact absurd h (by simp)
      · rintro ⟨pre, post, heq, hpre⟩
        cases pre with
        | nil =>
          injection heq with h1 h2
          exact absurd h1 (by simp)
        | cons p pre' =>
          injection heq with h1 h2
          have hp := hpre p (List.mem_cons_self p pre')
          rw [← h1] at hp
          simp [EndpointResult.isHttpError] at hp

theorem gtd_none_iff (rs : List EndpointResult) :
    get_task_details rs = none ↔ ∀ r ∈ rs, r.isOk = false := by
  induction rs with
  | nil => simp [get_task_details]
  | cons r rest ih =>
    cases r with
    | ok a => simp [get_task_details, EndpointResult.isOk]
    | httpError c => simpa [get_task_details, EndpointResult.isOk] using ih
    | netError => simpa [get_task_details, EndpointResult.isOk] using ih

/-- C1 counterexample: with a network error on the first candidate and a
200 on the second, main.py's `check_generation_status` returns `None`
without ever trying the second candidate, while the claim demands the
parsed body of the first candidate answering 200 — as
`get_task_details` (download_song.py) indeed delivers on the same
behaviour. -/
theorem c1_resolver_counterexample :
    check_generation_status [.netError, .ok (Json.str "body")] = none ∧
      get_task_details [.netError, .ok (Json.str "body")] = some (Json.str "body") :=
  ⟨rfl, rfl⟩

/-- C1 (amended): `get_task_details` returns the parsed body of the first
candidate answering exactly 200, treating both non-200 status codes and
network errors as "try the next candidate", and returns `None` exactly
when every candidate fails; `check_generation_status` does the same for
non-200 status codes, but a network error on any candidate makes it return
`None` immediately, without trying the remaining candidates (its
`try/except` wraps the whole candidate sequence). -/
theorem c1_resolver_first_success :
    (∀ rs b, get_task_details rs = some b ↔
      ∃ pre post, rs = pre ++ .ok b :: post ∧ ∀ r ∈ pre, r.isOk = false) ∧
    (∀ rs, get_task_details rs = none ↔ ∀ r ∈ rs, r.isOk = false) ∧
    (∀ rs b, check_generation_status rs = some b ↔
      ∃ pre post, rs = pre ++ .ok b :: post ∧ ∀ r ∈ pre, r.isHttpError = true) :=
  ⟨gtd_some_iff, gtd_none_iff, cgs_some_iff⟩

/-- C1 instances: the documented single-200 scenarios evaluated
concretely on both resolvers. -/
theorem c1_resolver_instances :
    get_task_details [.httpError 404, .netError, .ok (Json.str "b")] = some (Json.str "b") ∧
      check_generation_status [.httpError 404, .httpError 500, .ok (Json.str "b")]
        = some (Json.str "b") ∧
      get_task_details [.httpError 404, .netError, .httpError 500] = none :=
  ⟨rfl, rfl, rfl⟩

theorem downloadLoop_succ (attempt : Nat → Bool) (i rem : Nat) :
    downloadLoop attempt i (rem + 1) =
      if attempt i then (true, 1, [])
      else ((downloadLoop attempt (i + 1) rem).1,
            (downloadLoop attempt (i + 1) rem).2.1 + 1,
            2 ^ i :: (downloadLoop attempt (i + 1) rem).2.2) := rfl

theorem downloadLoop_succeeds (attempt : Nat → Bool) (i k rem : Nat)
    (hfail : ∀ j, j < k → attempt (i + j) = false)
    (hsucc : attempt (i + k) = true) (hk : k < rem) :
    downloadLoop attempt i rem =
      (true, k + 1, (List.range k).map (fun j => 2 ^ (i + j))) := by
  induction k generalizing i rem with
  | zero =>
    obtain ⟨r, rfl⟩ := Nat.exists_eq_add_of_lt hk
    simp only [Nat.add_zero] at hsucc
    simp [downloadLoop_succ, hsucc]
  | succ k ih =>
    obtain ⟨r, rfl⟩ := Nat.exists_eq_add_of_lt hk
    have h0 : attempt i = false := by simpa using hfail 0 (Nat.succ_pos k)
    have hrec := ih (i + 1) (k + 1 + r)
      (fun j hj => by
        have := hfail (j + 1) (Nat.succ_lt_succ hj)
        simpa [Nat.add_assoc, Nat.add_comm 1 j] using this)
      (by simpa [Nat.add_assoc, Nat.add_comm 1 k] using hsucc)
      (by omega)
    rw [downloadLoop_succ, if_neg (by simp [h0]), hrec]
    refine congrArg (Prod.mk true) (congrArg₂ Prod.mk rfl ?_)
    rw [List.range_succ_eq_map, List.map_cons, List.map_map, Nat.add_zero]
    refine congrArg (List.cons (2 ^ i)) (List.map_congr_left ?_)
    intro j _
    simp only [Function.comp_apply]
    congr 1
    omega

theorem downloadLoop_exhausts (attempt : Nat → Bool) (i rem : Nat)
    (hfail : ∀ j, j < rem → attempt (i + j) = false) :
    downloadLoop attempt i rem =
      (false, rem, (List.range rem).map (fun j => 2 ^ (i + j))) := by
  induction rem generalizing i with
  | zero => simp [downloadLoop]
  | succ rem ih =>
    have h0 : attempt i = false := by simpa using hfail 0 (Nat.succ_pos rem)
    have hrec := ih (i + 1) (fun j hj => by
      have := hfail (j + 1) (Nat.succ_lt_succ hj)
      simpa [Nat.add_assoc, Nat.add_comm 1 j] using this)
    rw [downloadLoop_succ, if_neg (by simp [h0]), hrec]
    refine congrArg (Prod.mk false) (congrArg₂ Prod.mk rfl ?_)
    rw [List.range_succ_eq_map, List.map_cons, List.map_map, Nat.add_zero]
    refine congrArg (List.cons (2 ^ i)) (List.map_congr_left ?_)
    intro j _
    simp only [Function.comp_apply]
    congr 1
    omega

theorem chain_doubling (k : Nat) :
    List.Chain' (fun a b => a < b ∧ b = 2 * a) ((List.range k).map (fun j => 2 ^ j)) := by
  rw [List.chain'_map]
  cases k with
  | zero => simp
  | succ n =>
    rw [List.chain'_range_succ]
    intro m _
    refine ⟨Nat.pow_lt_pow_succ (by norm_num), ?_⟩
    rw [pow_succ, Nat.mul_comm]

/-- C7: the download retry executor.  `download_music` (main.py) and
`download_file` (download_song.py) run the same loop; an operation that
fails on attempts `0..n-2` (raise, or missing/empty output file) and
succeeds on attempt `n-1` (with `n ≤ max_retries`) yields `True` after
exactly `n` attempts, the sleep after the `i`-th failed attempt being
`2^i` — a strictly increasing, doubling schedule; `max_retries`
consecutive failures yield `False` after `max_retries` attempts. -/
theorem c7_retry_executor :
    (∀ attempt maxRetries,
      download_music attempt maxRetries = download_file attempt maxRetries) ∧
    (∀ (attempt : Nat → Bool) (n maxRetries : Nat),
      1 ≤ n → n ≤ maxRetries →
      (∀ j, j < n - 1 → attempt j = false) → attempt (n - 1) = true →
      download_file attempt maxRetries
          = (true, n, (List.range (n - 1)).map (fun j => 2 ^ j)) ∧
        List.Chain' (fun a b => a < b ∧ b = 2 * a)
          (download_file attempt maxRetries).2.2) ∧
    (∀ (attempt : Nat → Bool) (maxRetries : Nat),
      (∀ j, j < maxRetries → attempt j = false) →
      download_file attempt maxRetries
        = (false, maxRetries, (List.range maxRetries).map (fun j => 2 ^ j))) := by
  refine ⟨fun _ _ => rfl, ?_, ?_⟩
  · intro attempt n maxRetries h1 hmax hfail hsucc
    obtain ⟨m, rfl⟩ : ∃ m, n = m + 1 := ⟨n - 1, by omega⟩
    simp only [Nat.add_sub_cancel] at hfail hsucc ⊢
    have heq : download_file attempt maxRetries
        = (true, m + 1, (List.range m).map (fun j => 2 ^ j)) := by
      have h := downloadLoop_succeeds attempt 0 m maxRetries
        (fun j hj => by simpa using hfail j hj)
        (by simpa using hsucc) (by omega)
      rw [download_file, h]
      simp only [Nat.zero_add]
    exact ⟨heq, by rw [heq]; exact chain_doubling m⟩
  · intro attempt maxRetries hfail
    have := downloadLoop_exhausts attempt 0 maxRetries
      (fun j hj => by simpa using hfail j hj)
    rw [download_file, this]
    simp only [Nat.zero_add]

/-- C7 instances: an operation failing twice then succeeding returns
`True` after 3 attempts with sleeps `[1, 2]`; five straight failures
return `False` after 5 attempts with sleeps `[1, 2, 4, 8, 16]`. -/
theorem c7_retry_instances :
    download_file (fun j => j == 2) 5 = (true, 3, [1, 2]) ∧
      download_music (fun j => j == 2) 5 = (true, 3, [1, 2]) ∧
      download_file (fun _ => false) 5 = (false, 5, [1, 2, 4, 8, 16]) :=
  ⟨rfl, rfl, rfl⟩

theorem extract_status_nil : extract_status JsonObj.nil = none := rfl

theorem obj_truthy_of_get {fields : JsonObj} {k : String} {v : Json}
    (h : JsonObj.get fields k = some v) : Json.truthy (Json.obj fields) = true := by
  cases fields with
  | nil => simp [JsonObj.get] at h
  | cons k' v' rest => rfl

theorem obj_truthy_of_statusInList {fields : JsonObj} {l : List String}
    (h : statusInList (extract_status fields) l = true) :
    Json.truthy (Json.obj fields) = true := by
  cases fields with
  | nil => rw [extract_status_nil] at h; simp [statusInList] at h
  | cons k v rest => rfl

theorem statusInList_false_of_disjoint (st : Option Json) (l1 l2 : List String)
    (h : statusInList st l1 = true) (hd : ∀ s ∈ l1, l2.contains s = false) :
    statusInList st l2 = false := by
  cases st with
  | none => simp [statusInList] at h
  | some v =>
    cases v with
    | str s =>
      simp only [statusInList, List.contains, List.elem_eq_mem, decide_eq_true_eq] at h
      have h2 := hd s h
      simp only [List.contains, List.elem_eq_mem] at h2
      simp [statusInList, List.contains, List.elem_eq_mem, h2]
    | num n => simp [statusInList] at h
    | bool b => simp [statusInList] at h
    | null => simp [statusInList] at h
    | arr items => simp [statusInList] at h
    | obj fields => simp [statusInList] at h

theorem tick_none : tick none = .stillPolling := rfl

theorem tick_obj_truthy {fields : JsonObj}
    (ht : Json.truthy (Json.obj fields) = true) :
    tick (some (Json.obj fields)) = tickObj fields := by
  simp [tick, ht]

theorem monitorLoop_stillPolling (resp : Nat → Option Json) (dl : Nat → Bool)
    (i b : Nat) (h : tick (resp i) = .stillPolling) :
    monitorLoop resp dl i (b + 1) =
      ((monitorLoop resp dl (i + 1) b).1, (monitorLoop resp dl (i + 1) b).2 + 1) := by
  simp [monitorLoop, h]

theorem monitorLoop_failedStatus (resp : Nat → Option Json) (dl : Nat → Bool)
    (i b : Nat) (h : tick (resp i) = .failedStatus) :
    monitorLoop resp dl i (b + 1) = (.failedStatus, 0) := by
  simp [monitorLoop, h]

theorem monitorLoop_failedApi (resp : Nat → Option Json) (dl : Nat → Bool)
    (i b : Nat) (h : tick (resp i) = .failedApiCode) :
    monitorLoop resp dl i (b + 1) = (.failedApi, 0) := by
  simp [monitorLoop, h]

theorem monitorLoop_stillPolling_forever (resp : Nat → Option Json) (dl : Nat → Bool)
    (i n : Nat) (h : ∀ j, tick (resp j) = .stillPolling) :
    monitorLoop resp dl i n = (.exhausted, n) := by
  induction n generalizing i with
  | zero => rfl
  | succ n ih => rw [monitorLoop_stillPolling resp dl i n (h i), ih (i + 1)]

theorem monitorLoop_handoff (resp : Nat → Option Json) (dl : Nat → Bool)
    (i b : Nat) (url : String) (h : tick (resp i) = .handoff url) :
    monitorLoop resp dl i (b + 1) =
      if dl i then (.succeeded, 0) else (.downloadFailed, 0) := by
  simp [monitorLoop, h]

theorem tick_handoff_inv (td : Option Json) (url : String)
    (h : tick td = .handoff url) :
    ∃ fields, td = some (Json.obj fields) ∧
      statusInList (extract_status fields) ["SUCCESS", "FIRST_SUCCESS"] = true ∧
      find_audio_url (Json.obj fields) = some url := by
  cases td with
  | none => simp [tick] at h
  | some t =>
    by_cases ht : t.truthy = true
    · cases t with
      | obj fields =>
        refine ⟨fields, rfl, ?_⟩
        rw [tick_obj_truthy ht, tickObj] at h
        split at h
        next => simp at h
        next =>
          rw [statusTick] at h
          split at h
          next hsil =>
            refine ⟨hsil, ?_⟩
            split at h
            next u heq => rw [heq]; injection h with h'; rw [h']
            next heq => simp at h
          next hsil =>
            split at h
            next => simp at h
            next => simp at h
      | str s => simp only [tick] at h; rw [if_pos ht] at h; exact TickOutcome.noConfusion h
      | num n => simp only [tick] at h; rw [if_pos ht] at h; exact TickOutcome.noConfusion h
      | bool b => simp only [tick] at h; rw [if_pos ht] at h; exact TickOutcome.noConfusion h
      | null => simp only [tick] at h; rw [if_pos ht] at h; exact TickOutcome.noConfusion h
      | arr items => simp only [tick] at h; rw [if_pos ht] at h; exact TickOutcome.noConfusion h
    · simp only [tick] at h
      rw [if_neg ht] at h
      exact TickOutcome.noConfusion h

theorem tick_success_no_url (fields : JsonObj)
    (hcode : codeFails (JsonObj.get fields "code") = false)
    (hsil : statusInList (extract_status fields) ["SUCCESS", "FIRST_SUCCESS"] = true)
    (hfa : find_audio_url (Json.obj fields) = none) :
    tick (some (Json.obj fields)) = .stillPolling := by
  rw [tick_obj_truthy (obj_truthy_of_statusInList hsil), tickObj, if_neg (by simp [hcode]),
    statusTick]
  rw [if_pos hsil, hfa]

theorem tick_failedList (fields : JsonObj)
    (hcode : codeFails (JsonObj.get fields "code") = false)
    (hfail : statusInList (extract_status fields) failedStatuses = true) :
    tick (some (Json.obj fields)) = .failedStatus := by
  have hns : statusInList (extract_status fields) ["SUCCESS", "FIRST_SUCCESS"] = false := by
    refine statusInList_false_of_disjoint _ failedStatuses _ hfail ?_
    intro s hs
    simp only [failedStatuses, List.mem_cons, List.not_mem_nil, or_false] at hs
    rcases hs with rfl | rfl | rfl | rfl <;> rfl
  rw [tick_obj_truthy (obj_truthy_of_statusInList hfail), tickObj, if_neg (by simp [hcode]),
    statusTick]
  rw [if_neg (by simp [hns]), if_pos hfail]

/-- C2: a tick of `monitor_and_download` hands a URL to the download stage
only when the extracted status is `SUCCESS` or `FIRST_SUCCESS` **and**
`find_audio_url` found a URL in that same response; on a success-class
status with no URL the tick keeps polling, and a still-polling tick sleeps
once and hands the loop on to the next tick with one budget unit used. -/
theorem c2_succeeded_requires_url :
    (∀ (td : Option Json) (url : String), tick td = .handoff url →
      ∃ fields, td = some (Json.obj fields) ∧
        statusInList (extract_status fields) ["SUCCESS", "FIRST_SUCCESS"] = true ∧
        find_audio_url (Json.obj fields) = some url) ∧
    (∀ fields, codeFails (JsonObj.get fields "code") = false →
      statusInList (extract_status fields) ["SUCCESS", "FIRST_SUCCESS"] = true →
      find_audio_url (Json.obj fields) = none →
      tick (some (Json.obj fields)) = .stillPolling) ∧
    (∀ (resp : Nat → Option Json) (dl : Nat → Bool) (i b : Nat),
      tick (resp i) = .stillPolling →
      monitorLoop resp dl i (b + 1) =
        ((monitorLoop resp dl (i + 1) b).1, (monitorLoop resp dl (i + 1) b).2 + 1)) :=
  ⟨tick_handoff_inv, tick_success_no_url, monitorLoop_stillPolling⟩

/-- C2 instances: a `SUCCESS` response with no audio URL keeps polling; a
`SUCCESS` response with a valid `audioUrl` hands that URL off. -/
theorem c2_instances :
    tick (some (Json.obj (JsonObj.ofList
        [("data", Json.obj (JsonObj.ofList [("status", Json.str "SUCCESS")]))])))
      = .stillPolling ∧
    tick (some (Json.obj (JsonObj.ofList
        [("data", Json.obj (JsonObj.ofList
          [("status", Json.str "SUCCESS"),
           ("results", Json.arr (JsonArr.ofList
             [Json.obj (JsonObj.ofList [("audioUrl", Json.str "http://x/y.mp3")])]))]))])))
      = .handoff "http://x/y.mp3" :=
  ⟨rfl, rfl⟩

/-- C4: a response whose extracted status is one of the explicitly-failed
states makes that very tick return `False` — `failedStatus` when the
API-code check passes, `failedApiCode` otherwise — and the loop stops
there, never consulting the resolver again; in particular a first response
`{"status": "CREATE_TASK_FAILED"}` ends the run on tick 0 with no sleep. -/
theorem c4_failed_status_terminal :
    (∀ fields, codeFails (JsonObj.get fields "code") = false →
      statusInList (extract_status fields) failedStatuses = true →
      tick (some (Json.obj fields)) = .failedStatus) ∧
    (∀ fields, statusInList (extract_status fields) failedStatuses = true →
      tick (some (Json.obj fields)) = .failedStatus ∨
        tick (some (Json.obj fields)) = .failedApiCode) ∧
    (∀ (resp : Nat → Option Json) (dl : Nat → Bool) (i b : Nat),
      tick (resp i) = .failedStatus → monitorLoop resp dl i (b + 1) = (.failedStatus, 0)) ∧
    (∀ (resp : Nat → Option Json) (dl : Nat → Bool) (i b : Nat),
      tick (resp i) = .failedApiCode → monitorLoop resp dl i (b + 1) = (.failedApi, 0)) ∧
    (∀ (dl : Nat → Bool) (b : Nat),
      monitor_and_download
        (fun _ => some (Json.obj (JsonObj.cons "status" (Json.str "CREATE_TASK_FAILED") JsonObj.nil)))
        dl (b + 1) = (.failedStatus, 0)) ∧
    MonitorOutcome.ret .failedStatus = some false := by
  refine ⟨tick_failedList, ?_, monitorLoop_failedStatus, monitorLoop_failedApi, ?_, rfl⟩
  · intro fields hfail
    by_cases hc : codeFails (JsonObj.get fields "code") = true
    · right
      rw [tick_obj_truthy (obj_truthy_of_statusInList hfail), tickObj, if_pos hc]
    · left
      exact tick_failedList fields (by simpa using hc) hfail
  · intro dl b
    rw [monitor_and_download]
    exact monitorLoop_failedStatus _ dl 0 b rfl

/-- C5: a tick on which the resolver returns `None` (every candidate
endpoint failed) keeps the poller in the loop: it is not a task failure,
it sleeps exactly one interval and consumes exactly one unit of the
`max_checks` budget; a run in which every tick resolves to `None` ends as
`exhausted` after exactly `max_checks` ticks and sleeps. -/
theorem c5_allfailed_consumes_one_attempt :
    tick none = .stillPolling ∧
    (∀ (resp : Nat → Option Json) (dl : Nat → Bool) (i b : Nat), resp i = none →
      monitorLoop resp dl i (b + 1) =
        ((monitorLoop resp dl (i + 1) b).1, (monitorLoop resp dl (i + 1) b).2 + 1)) ∧
    (∀ (dl : Nat → Bool) (maxChecks : Nat),
      monitor_and_download (fun _ => none) dl maxChecks = (.exhausted, maxChecks)) := by
  refine ⟨rfl, ?_, ?_⟩
  · intro resp dl i b h
    exact monitorLoop_stillPolling resp dl i b (by rw [h]; rfl)
  · intro dl maxChecks
    exact monitorLoop_stillPolling_forever _ dl 0 maxChecks (fun _ => rfl)

/-- C6 counterexample: on `{"code": 404, "status": "CREATE_TASK_FAILED"}`
the poller does **not** remain in Polling as the claim states — the 404
only skips the API-code failure exit, after which the failed status of the
same response ends the tick as `failedStatus`. -/
theorem c6_code404_counterexample :
    tick (some (Json.obj (JsonObj.ofList
        [("code", Json.num 404), ("status", Json.str "CREATE_TASK_FAILED")])))
      = .failedStatus ∧
    TickOutcome.failedStatus ≠ TickOutcome.stillPolling :=
  ⟨rfl, by decide⟩

/-- C6 (amended): a truthy top-level `code` other than 200 and 404 fails
the task on that tick with no further ticks; when the code is 404 the tick
does not fail on the code but goes on to interpret the `status` field of
the same response (so it remains in Polling only when that status logic
does). -/
theorem c6_api_error_code_check :
    (∀ (fields : JsonObj) (j : Json), JsonObj.get fields "code" = some j →
      j.truthy = true → jsonEqInt j 200 = false → jsonEqInt j 404 = false →
      tick (some (Json.obj fields)) = .failedApiCode) ∧
    (∀ (fields : JsonObj) (j : Json), JsonObj.get fields "code" = some j →
      jsonEqInt j 404 = true →
      tick (some (Json.obj fields)) = statusTick fields) ∧
    (∀ (resp : Nat → Option Json) (dl : Nat → Bool) (i b : Nat),
      tick (resp i) = .failedApiCode → monitorLoop resp dl i (b + 1) = (.failedApi, 0)) := by
  refine ⟨?_, ?_, monitorLoop_failedApi⟩
  · intro fields j hget htr h200 h404
    rw [tick_obj_truthy (obj_truthy_of_get hget), tickObj,
      if_pos (by simp [codeFails, hget, htr, h200, h404])]
  · intro fields j hget h404
    rw [tick_obj_truthy (obj_truthy_of_get hget), tickObj,
      if_neg (by simp [codeFails, hget, h404])]

/-- C6 instances: code 500 fails the tick at once; a bare 404 body keeps
polling (its status logic finds nothing). -/
theorem c6_instances :
    tick (some (Json.obj (JsonObj.ofList
        [("code", Json.num 500), ("msg", Json.str "server error")])))
      = .failedApiCode ∧
    tick (some (Json.obj (JsonObj.ofList
        [("code", Json.num 404), ("msg", Json.str "not found")])))
      = .stillPolling :=
  ⟨rfl, rfl⟩

/-- C3 counterexample: a run that exhausts its budget on `PENDING`
responses and a run that hits `CREATE_TASK_FAILED` take distinct internal
exits (`exhausted` vs `failedStatus`), but `monitor_and_download` returns
the very same value — `False` — for both, so the caller cannot tell budget
exhaustion from task failure from the returned result value. -/
theorem c3_return_value_counterexample :
    (monitor_and_download
        (fun _ => some (Json.obj (JsonObj.cons "status" (Json.str "PENDING") JsonObj.nil)))
        (fun _ => false) 2).1 = .exhausted ∧
    (monitor_and_download
        (fun _ => some (Json.obj (JsonObj.cons "status" (Json.str "CREATE_TASK_FAILED") JsonObj.nil)))
        (fun _ => false) 2).1 = .failedStatus ∧
    MonitorOutcome.ret .exhausted = MonitorOutcome.ret .failedStatus :=
  ⟨rfl, rfl, rfl⟩

/-- C3 (amended): when the budget runs out while every tick is still
polling, the run ends as `exhausted` after exactly `max_checks` ticks —
an exit distinct from `failedStatus` internally, but mapped to the same
returned value `False` as a task failure or an API-code failure, so the
distinction is visible only in the logs, not in the return value. -/
theorem c3_exhaustion_returns_false :
    (∀ (resp : Nat → Option Json) (dl : Nat → Bool) (i n : Nat),
      (∀ j, tick (resp j) = .stillPolling) → monitorLoop resp dl i n = (.exhausted, n)) ∧
    MonitorOutcome.ret .exhausted = some false ∧
    MonitorOutcome.ret .failedStatus = some false ∧
    MonitorOutcome.ret .failedApi = some false ∧
    MonitorOutcome.ret .exhausted ≠ MonitorOutcome.ret .succeeded :=
  ⟨monitorLoop_stillPolling_forever, rfl, rfl, rfl, by decide⟩

/-- C3 instance: three pending ticks exhaust a budget of three. -/
theorem c3_instances :
    monitor_and_download
        (fun _ => some (Json.obj (JsonObj.cons "status" (Json.str "PENDING") JsonObj.nil)))
        (fun _ => false) 3 = (.exhausted, 3) :=
  rfl

theorem mem_aliasStringsFields_of_get :
    ∀ (fields : JsonObj) (k s : String),
      JsonObj.get fields k = some (.str s) → aliasKeys.contains k = true →
      s ∈ aliasStringsFields fields
  | .nil, k, s, hget, _ => by
    rw [JsonObj.get] at hget
    exact Option.noConfusion hget
  | .cons k' v rest, k, s, hget, hk => by
    rw [JsonObj.get] at hget
    by_cases he : (k' == k) = true
    · rw [if_pos he] at hget
      injection hget with hv
      have hk' : aliasKeys.contains k' = true := by
        rwa [show k' = k from by simpa using he]
      subst hv
      rw [aliasStringsFields, if_pos hk']
      exact List.mem_append_left _ (List.mem_append_left _ (by
        show s ∈ strVal (Json.str s)
        exact List.mem_singleton.mpr rfl))
    · rw [if_neg he] at hget
      rw [aliasStringsFields]
      exact List.mem_append_right _ (mem_aliasStringsFields_of_get rest k s hget hk)

theorem checkAliases_sound :
    ∀ (ks : List String) (fields : JsonObj) (s : String),
      (∀ k ∈ ks, aliasKeys.contains k = true) →
      checkAliases fields ks = some s →
      s ∈ aliasStringsFields fields ∧ urlValid s = true
  | [], _, _, _, h => by
    rw [checkAliases] at h
    exact Option.noConfusion h
  | k :: ks, fields, s, hks, h => by
    rw [checkAliases] at h
    split at h
    next s' heq =>
      split at h
      next hv =>
        have hs := Option.some.inj h
        subst hs
        exact ⟨mem_aliasStringsFields_of_get fields k s' heq
          (hks k (List.mem_cons_self k ks)), hv⟩
      next =>
        exact checkAliases_sound ks fields s
          (fun a ha => hks a (List.mem_cons_of_mem _ ha)) h
    next =>
      exact checkAliases_sound ks fields s
        (fun a ha => hks a (List.mem_cons_of_mem _ ha)) h

mutual

theorem find_audio_url_sound :
    ∀ (t : Json) (s : String), find_audio_url t = some s →
      s ∈ aliasStrings t ∧ urlValid s = true
  | .obj fields, s, h => by
    rw [find_audio_url] at h
    split at h
    next s' heq =>
      have hs := Option.some.inj h
      subst hs
      exact checkAliases_sound aliasKeys fields s'
        (fun a ha => by simpa [List.contains, List.elem_eq_mem] using ha) heq
    next =>
      exact faFields_sound fields s h
  | .arr items, s, h => by
    rw [find_audio_url] at h
    exact faItems_sound items s h
  | .str v, s, h => by exact Option.noConfusion h
  | .num v, s, h => by exact Option.noConfusion h
  | .bool v, s, h => by exact Option.noConfusion h
  | .null, s, h => by exact Option.noConfusion h

theorem faFields_sound :
    ∀ (fields : JsonObj) (s : String), faFields fields = some s →
      s ∈ aliasStringsFields fields ∧ urlValid s = true
  | .nil, _, h => by
    rw [faFields] at h
    exact Option.noConfusion h
  | .cons k v rest, s, h => by
    rw [faFields] at h
    split at h
    next r heq =>
      have hs := Option.some.inj h
      subst hs
      have hrec := find_audio_url_sound v r heq
      refine ⟨?_, hrec.2⟩
      rw [aliasStringsFields]
      exact List.mem_append_left _ (List.mem_append_right _ hrec.1)
    next =>
      have hrec := faFields_sound rest s h
      refine ⟨?_, hrec.2⟩
      rw [aliasStringsFields]
      exact List.mem_append_right _ hrec.1

theorem faItems_sound :
    ∀ (items : JsonArr) (s : String), faItems items = some s →
      s ∈ aliasStringsItems items ∧ urlValid s = true
  | .nil, _, h => by
    rw [faItems] at h
    exact Option.noConfusion h
  | .cons item rest, s, h => by
    rw [faItems] at h
    split at h
    next r heq =>
      have hs := Option.some.inj h
      subst hs
      have hrec := find_audio_url_sound item r heq
      refine ⟨?_, hrec.2⟩
      rw [aliasStringsItems]
      exact List.mem_append_left _ hrec.1
    next =>
      have hrec := faItems_sound rest s h
      refine ⟨?_, hrec.2⟩
      rw [aliasStringsItems]
      exact List.mem_append_right _ hrec.1

end

/-- C8: `find_audio_url` returns a value only if it is a string bound to
one of the alias keys (`audioUrl`, `audio_url`, `url`, `mp3Url`,
`streamUrl`) somewhere in the tree and passes the validity filter —
starts with `http` and carries one of the content markers `.mp3`, `.wav`,
`/audio/`; a tree whose alias-bound strings are all marker-less yields
`None`. -/
theorem c8_url_validity_filter :
    (∀ (t : Json) (s : String), find_audio_url t = some s →
      s ∈ aliasStrings t ∧ urlValid s = true) ∧
    (∀ t : Json, (aliasStrings t).all (fun s => !urlValid s) = true →
      find_audio_url t = none) := by
  refine ⟨find_audio_url_sound, ?_⟩
  intro t hall
  cases h : find_audio_url t with
  | none => rfl
  | some s =>
    have hs := find_audio_url_sound t s h
    have hbad := List.all_eq_true.mp hall s hs.1
    rw [hs.2] at hbad
    simp at hbad

/-- C8 instances: a callback URL (and a marker-less `url` value) is never
picked up, while an alias-bound URL with an `/audio/` segment is. -/
theorem c8_instances :
    find_audio_url (Json.obj (JsonObj.ofList
        [("callBackUrl", Json.str "http://example.com/callback"),
         ("url", Json.str "http://example.com/landing")])) = none ∧
    urlValid "http://example.com/landing" = false ∧
    find_audio_url (Json.obj (JsonObj.ofList
        [("streamUrl", Json.str "http://cdn.example.com/audio/track")]))
      = some "http://cdn.example.com/audio/track" :=
  ⟨rfl, rfl, rfl⟩

theorem findStatusFields_truthy :
    ∀ (fields : JsonObj) (v : Json), findStatusFields fields = some v → v.truthy = true
  | .nil, _, h => by
    rw [findStatusFields] at h
    exact Option.noConfusion h
  | .cons k v0 rest, v, h => by
    rw [findStatusFields] at h
    split at h
    next r heq =>
      split at h
      next htr =>
        have hs := Option.some.inj h
        subst hs
        exact htr
      next => exact findStatusFields_truthy rest v h
    next => exact findStatusFields_truthy rest v h

theorem find_status_root (fields : JsonObj) (v : Json)
    (h : JsonObj.get fields "status" = some v) :
    find_status (Json.obj fields) = some v := by
  rw [find_status, h]

theorem find_status_no_root_truthy (fields : JsonObj) (v : Json)
    (hroot : JsonObj.get fields "status" = none)
    (h : find_status (Json.obj fields) = some v) : v.truthy = true := by
  rw [find_status, hroot] at h
  exact findStatusFields_truthy fields v h

/-- C10 counterexample: on
`{"status": "", "data": {"inner": {"status": "SUCCESS"}}}` both status
extractions end with the falsy `""` — the recursive search returns the
top-level object's own falsy `status` unconditionally — although the
truthy `"SUCCESS"` is reachable deeper, refuting "a falsy final result
occurs only when no truthy `status` value is reachable". -/
theorem c10_falsy_status_counterexample :
    extract_status (JsonObj.ofList
        [("status", Json.str ""),
         ("data", Json.obj (JsonObj.ofList
           [("inner", Json.obj (JsonObj.ofList [("status", Json.str "SUCCESS")]))]))])
      = some (Json.str "") ∧
    ck_extract_status (Json.obj (JsonObj.ofList
        [("status", Json.str ""),
         ("data", Json.obj (JsonObj.ofList
           [("inner", Json.obj (JsonObj.ofList [("status", Json.str "SUCCESS")]))]))]))
      = some (Json.str "") ∧
    Json.truthy (Json.str "") = false ∧
    hasTruthyStatus (Json.obj (JsonObj.ofList
        [("status", Json.str ""),
         ("data", Json.obj (JsonObj.ofList
           [("inner", Json.obj (JsonObj.ofList [("status", Json.str "SUCCESS")]))]))]))
      = true :=
  ⟨rfl, rfl, rfl, rfl⟩

/-- C10 (amended): a falsy status at `data.status` and at the top-level
lookup falls through to the recursive search; inside the recursion a
subtree whose result is falsy is skipped in favour of a later truthy one,
and any value the pure recursion produces is truthy — but the recursive
search returns the root object's own `status` value unconditionally, even
falsy, so when the top level itself holds a falsy `status` that falsy
value is the final result even if a truthy status is reachable deeper. -/
theorem c10_falsy_status_fallthrough :
    (∀ fields, optTruthy (dataStatus fields) = false →
      optTruthy (JsonObj.get fields "status") = false →
      extract_status fields = find_status (Json.obj fields)) ∧
    (∀ (fields : JsonObj) (v : Json), JsonObj.get fields "status" = none →
      find_status (Json.obj fields) = some v → v.truthy = true) ∧
    (∀ (fields : JsonObj) (v : Json), JsonObj.get fields "status" = some v →
      find_status (Json.obj fields) = some v) ∧
    (∀ (k : String) (v : Json) (rest : JsonObj) (r : Json),
      find_status v = some r → r.truthy = false →
      findStatusFields (JsonObj.cons k v rest) = findStatusFields rest) := by
  refine ⟨?_, find_status_no_root_truthy, find_status_root, ?_⟩
  · intro fields h1 h2
    rw [extract_status, if_neg (by simp [h1]), if_neg (by simp [h2])]
  · intro k v rest r hfind hfalsy
    rw [findStatusFields, hfind]
    simp [hfalsy]

/-- C10 instances: a falsy subtree match is skipped in favour of a later
truthy one when the root has no `status` key of its own. -/
theorem c10_instances :
    extract_status (JsonObj.ofList
        [("a", Json.obj (JsonObj.ofList [("status", Json.str "")])),
         ("b", Json.obj (JsonObj.ofList [("status", Json.str "SUCCESS")]))])
      = some (Json.str "SUCCESS") ∧
    extract_status (JsonObj.ofList
        [("a", Json.obj (JsonObj.ofList [("status", Json.str "")]))])
      = none :=
  ⟨rfl, rfl⟩

theorem ck_truthy_of_statusInList :
    ∀ (t : Json) (l : List String),
      statusInList (ck_extract_status t) l = true → t.truthy = true := by
  intro t l h
  cases t with
  | obj fields =>
    cases fields with
    | nil =>
      rw [show ck_extract_status (Json.obj JsonObj.nil) = none from rfl] at h
      simp [statusInList] at h
    | cons k v rest => rfl
  | str s =>
    rw [show ck_extract_status (Json.str s) = none from rfl] at h
    simp [statusInList] at h
  | num n =>
    rw [show ck_extract_status (Json.num n) = none from rfl] at h
    simp [statusInList] at h
  | bool b =>
    rw [show ck_extract_status (Json.bool b) = none from rfl] at h
    simp [statusInList] at h
  | null =>
    rw [show ck_extract_status Json.null = none from rfl] at h
    simp [statusInList] at h
  | arr items =>
    rw [show ∀ i, ck_extract_status (Json.arr i) = none from fun _ => rfl] at h
    simp [statusInList] at h

theorem ck_success_still_processing (t : Json) (h d : Bool)
    (hsil : statusInList (ck_extract_status t) ["SUCCESS", "FIRST_SUCCESS"] = true) :
    check_task_status (some t) h d = .stillProcessing := by
  have ht : t.truthy = true := ck_truthy_of_statusInList t _ hsil
  have hc : statusInList (ck_extract_status t) ["complete", "finished", "success"] = false :=
    statusInList_false_of_disjoint _ _ _ hsil (by
      intro s hs
      simp only [List.mem_cons, List.not_mem_nil, or_false] at hs
      rcases hs with rfl | rfl <;> rfl)
  have hf : statusInList (ck_extract_status t) ["failed", "error"] = false :=
    statusInList_false_of_disjoint _ _ _ hsil (by
      intro s hs
      simp only [List.mem_cons, List.not_mem_nil, or_false] at hs
      rcases hs with rfl | rfl <;> rfl)
  simp [check_task_status, ht, hc, hf]

theorem ck_complete_branch_iff (t : Json) (h d : Bool) :
    (check_task_status (some t) h d ∈
      ([.downloaded, .downloadFailed, .urlReported, .noUrl] : List CheckOutcome)) ↔
      statusInList (ck_extract_status t) ["complete", "finished", "success"] = true := by
  by_cases ht : t.truthy = true
  · by_cases hc :
        statusInList (ck_extract_status t) ["complete", "finished", "success"] = true
    · refine iff_of_true ?_ hc
      cases t with
      | obj fields =>
        simp only [check_task_status, ht, if_true, hc]
        by_cases ha : optTruthy (ckAudioUrl fields) = true
        · cases h with
          | true =>
            cases d with
            | true => simp [ha]
            | false => simp [ha]
          | false => simp [ha]
        · simp [ha]
      | str s =>
        rw [show ck_extract_status (Json.str s) = none from rfl] at hc
        simp [statusInList] at hc
      | num n =>
        rw [show ck_extract_status (Json.num n) = none from rfl] at hc
        simp [statusInList] at hc
      | bool b =>
        rw [show ck_extract_status (Json.bool b) = none from rfl] at hc
        simp [statusInList] at hc
      | null =>
        rw [show ck_extract_status Json.null = none from rfl] at hc
        simp [statusInList] at hc
      | arr items =>
        rw [show ∀ i, ck_extract_status (Json.arr i) = none from fun _ => rfl] at hc
        simp [statusInList] at hc
    · refine iff_of_false ?_ hc
      simp only [check_task_status, ht, if_true, if_neg hc]
      by_cases hf : statusInList (ck_extract_status t) ["failed", "error"] = true
      · simp [hf]
      · simp [hf]
  · have ht' : t.truthy = false := by simpa using ht
    refine iff_of_false ?_ ?_
    · simp [check_task_status, ht']
    · intro hc
      exact ht (ck_truthy_of_statusInList t _ hc)

/-- C9: the standalone `check_task_status` recognises completion only for
the exact lowercase strings `complete`, `finished`, `success`
(case-sensitive `==`): a response whose extracted status is `SUCCESS` or
`FIRST_SUCCESS` — the main poller's success-class values — takes the
still-processing branch and returns `False`, never reaching the
audio-URL extraction or the download. -/
theorem c9_lowercase_completion_only :
    (∀ (t : Json) (h d : Bool),
      statusInList (ck_extract_status t) ["SUCCESS", "FIRST_SUCCESS"] = true →
      check_task_status (some t) h d = .stillProcessing) ∧
    (∀ (t : Json) (h d : Bool),
      (check_task_status (some t) h d ∈
        ([.downloaded, .downloadFailed, .urlReported, .noUrl] : List CheckOutcome)) ↔
        statusInList (ck_extract_status t) ["complete", "finished", "success"] = true) ∧
    CheckOutcome.ret .stillProcessing = false :=
  ⟨ck_success_still_processing, ck_complete_branch_iff, rfl⟩

/-- C9 instances: a `SUCCESS` response is treated as still processing by
`check_task_status` (returning `False`), while a lowercase `success`
response reaches the completion branch. -/
theorem c9_instances :
    check_task_status (some (Json.obj (JsonObj.ofList
        [("data", Json.obj (JsonObj.ofList [("status", Json.str "SUCCESS")]))])))
        true true = .stillProcessing ∧
    CheckOutcome.ret .stillProcessing = false ∧
    check_task_status (some (Json.obj (JsonObj.ofList
        [("data", Json.obj (JsonObj.ofList
          [("status", Json.str "success"),
           ("audioUrl", Json.str "http://x/y.mp3")]))])))
        true true = .downloaded :=
  ⟨rfl, rfl, rfl⟩

/-- C4 instances: a first response `{"status": "CREATE_TASK_FAILED"}`
ends the run as failed on the very first tick — zero sleeps, no second
tick — even with the full default budget of 30 checks. -/
theorem c4_instances :
    monitor_and_download
        (fun _ => some (Json.obj (JsonObj.cons "status" (Json.str "CREATE_TASK_FAILED") JsonObj.nil)))
        (fun _ => false) 30 = (.failedStatus, 0) ∧
      MonitorOutcome.ret .failedStatus = some false :=
  ⟨rfl, rfl⟩

/-- C5 instances: a resolver that always fails consumes one budget unit
per tick and exhausts a budget of 5 after 5 sleeps. -/
theorem c5_instances :
    tick none = .stillPolling ∧
      monitor_and_download (fun _ => none) (fun _ => false) 5 = (.exhausted, 5) :=
  ⟨rfl, rfl⟩
